import Mathlib

/-!
Shallow embedding of the dividend-pattern estimation engine of
`yfinance-toolkit` (files `src/analysis/dividend/dividend_analysis.py`,
`src/analysis/dividend/dividend_calculations.py`,
`src/models/dividend_models.py`, `src/utils/get_redundant_field.py`,
`src/utils/date_util.py`).

Modelling conventions:
- Calendar dates are day numbers (`Int`): `date + timedelta(days=k)` is `+ k`,
  `(d1 - d2).days` is `d1 - d2`, `date.today()` is an explicit `today : Int`
  parameter.
- Python floats are embedded as rationals (`ℚ`); `int(x)` truncates toward
  zero (`pyInt`), `round(x)` rounds half-to-even (`pyRound`), `x // n` is
  `Rat.floor` of the quotient.
- Optional values / Python truthiness: `None` is `Option.none`; a numeric
  field is truthy iff present and nonzero (`truthyQ`).
- A value taken from an untyped source that may or may not be a proper date
  object is a `PyVal` (`dateVal` for a `date`/`datetime`/`Timestamp`,
  `other` for anything else, matching `isinstance` checks in the source).
- A raw index entry whose normalization (`DateNormalizer.normalize_date`)
  may raise is a `RawDate`; exceptions are `Except String`.
-/

namespace YF

/-- Python `int(x)` on a float: truncation toward zero. -/
def pyInt (q : ℚ) : ℤ := if 0 ≤ q then ⌊q⌋ else ⌈q⌉

/-- Python `round(x)` (no digits): round half to even, returning an int. -/
def pyRound (q : ℚ) : ℤ :=
  let f := ⌊q⌋
  let r := q - (f : ℚ)
  if r < 1/2 then f
  else if 1/2 < r then f + 1
  else if f % 2 = 0 then f else f + 1

/-- Python `round(x, 4)`: round to four decimal places, half to even. -/
def round4 (q : ℚ) : ℚ := (pyRound (q * 10000) : ℚ) / 10000

/-- Python truthiness filter for an optional numeric: `None` and `0` are
falsy, everything else is kept. -/
def truthyQ : Option ℚ → Option ℚ
  | some x => if x = 0 then none else some x
  | none => none

/-- A value found in an untyped mapping slot: either a proper date-like
object (already normalized to a day number) or something that fails the
`isinstance` date checks. -/
inductive PyVal where
  | dateVal (day : ℤ)
  | other
deriving DecidableEq, Repr

/-- The provider's calendar snapshot: the two optional fields read from the
`calendar` dict. `none` on a field models a missing key (`dict.get` gives
`None`). A falsy / non-dict calendar as a whole is `Option Calendar = none`
at use sites. -/
structure Calendar where
  divDate : Option PyVal  -- key "Dividend Date"
  exDate : Option PyVal   -- key "Ex-Dividend Date"
deriving DecidableEq, Repr

/-- A raw series-index entry handed to `DateNormalizer.normalize_date`:
either normalizes to a day number or raises. -/
inductive RawDate where
  | val (day : ℤ)
  | bad (msg : String)
deriving DecidableEq, Repr

/-- `DateNormalizer.normalize_date` (src/utils/date_util.py): converts a
date-like object to a date, raising `ValueError` on unsupported input. -/
def normalize_date : RawDate → Except String ℤ
  | .val d => .ok d
  | .bad m => .error m

/-- `DividendGapResult` (src/models/dividend_models.py). `gap_days` is ℚ
because the fallback branch computes it with float floor-division. -/
structure DividendGapResult where
  gap_days : ℚ
  confidence : String
  estimation_method : String
deriving DecidableEq, Repr

/-- `ExDividendPattern` (src/models/dividend_models.py). -/
structure ExDividendPattern where
  mean_day_of_month : ℚ
  std_dev_days : ℚ
  min_day : ℤ
  max_day : ℤ
deriving DecidableEq, Repr

/-- The unconditional fallback of `analyze_dividend_gap` (lines 156-160). -/
def gapFallback (avg : Option ℚ) : DividendGapResult :=
  -- the unconditional fallback: gap = min(34, (avg // 3) if avg else 34)
  { gap_days := min 34 (match truthyQ avg with
      | some a => ((⌊a / 3⌋ : ℤ) : ℚ)
      | none => 34),
    confidence := "low",
    estimation_method := "default_fallback_guess" }

/-- The `if avg_interval:` block of `analyze_dividend_gap` (lines 139-148),
reached when neither of the first two checks returned. -/
def gapThirdCheck (avg : Option ℚ) (dd ed : ℤ) : DividendGapResult :=
  match truthyQ avg with
  | some a =>
    let estimated_last_ex_date := ed - pyInt a
    let calculated_gap := dd - estimated_last_ex_date
    if 0 ≤ calculated_gap ∧ calculated_gap ≤ 60 then
      { gap_days := (calculated_gap : ℚ), confidence := "moderate",
        estimation_method := "div_predicted_direct_calendar" }
    else gapFallback avg
  | none => gapFallback avg

/-- The branch of `analyze_dividend_gap` where both calendar fields are
date objects (lines 119-148): `gap = (div_date - ex_date).days`, then the
next-cycle adjustment, the direct check, and the third check in order. -/
def gapCalendarCase (avg : Option ℚ) (dd ed : ℤ) : DividendGapResult :=
  match truthyQ avg with
  | some a =>
    if ((dd - ed : ℤ) : ℚ) > a then
      if 0 ≤ dd - ed - pyInt a ∧ dd - ed - pyInt a ≤ 60 then
        { gap_days := ((dd - ed - pyInt a : ℤ) : ℚ), confidence := "moderate",
          estimation_method := "exdiv_predicted_direct_calendar" }
      else gapThirdCheck avg dd ed
    else if 0 ≤ dd - ed ∧ dd - ed ≤ 60 then
      { gap_days := ((dd - ed : ℤ) : ℚ), confidence := "high",
        estimation_method := "direct_calendar" }
    else gapThirdCheck avg dd ed
  | none =>
    if 0 ≤ dd - ed ∧ dd - ed ≤ 60 then
      { gap_days := ((dd - ed : ℤ) : ℚ), confidence := "high",
        estimation_method := "direct_calendar" }
    else gapThirdCheck avg dd ed

/-- `DividendPatternAnalyzer.analyze_dividend_gap`
(src/analysis/dividend/dividend_analysis.py, lines 93-160).
`calendar = none` models a falsy or non-dict calendar; `avg = none` models
`avg_interval is None`. -/
def analyze_dividend_gap (calendar : Option Calendar) (avg : Option ℚ) :
    DividendGapResult :=
  match calendar with
  | none => gapFallback avg
  | some cal =>
    match cal.divDate, cal.exDate with
    | some (.dateVal dd), some (.dateVal ed) => gapCalendarCase avg dd ed
    | _, _ => gapFallback avg

/-- Insert into a `≤`-sorted list of rationals, keeping it sorted. -/
def insSorted (x : ℚ) : List ℚ → List ℚ
  | [] => [x]
  | y :: ys => if x ≤ y then x :: y :: ys else y :: insSorted x ys

/-- Sort a list of rationals ascending (insertion sort). -/
def sortQ : List ℚ → List ℚ
  | [] => []
  | x :: xs => insSorted x (sortQ xs)

/-- `np.median`: sort; middle element for odd length, mean of the two middle
elements for even length; `none` for the empty list (numpy's NaN). -/
def medianQ (l : List ℚ) : Option ℚ :=
  if (sortQ l).length % 2 = 1 then (sortQ l)[(sortQ l).length / 2]?
  else
    match (sortQ l)[(sortQ l).length / 2 - 1]?,
        (sortQ l)[(sortQ l).length / 2]? with
    | some a, some b => some ((a + b) / 2)
    | _, _ => none

/-- `np.diff` on a list of day numbers: consecutive differences. -/
def diffs : List ℤ → List ℤ
  | a :: b :: rest => (b - a) :: diffs (b :: rest)
  | _ => []

/-- One dividend-series entry: (index date as day number, amount). -/
abbrev DivSeries := List (ℤ × ℚ)

/-- The strictly positive (finite) consecutive day-gaps of the series
(`valid_intervals` in `analyze_dividend_frequency`; in the integer-day
embedding every gap is finite, so the `np.isfinite` conjunct is vacuous). -/
def validGaps (divs : DivSeries) : List ℤ :=
  (diffs (divs.map Prod.fst)).filter (fun g => decide (0 < g))

/-- `DividendFrequency.INTERVAL_RANGES` (src/models/dividend_models.py):
ordered half-open ranges; `none` as upper bound models `float('inf')`. -/
def INTERVAL_RANGES : List ((ℚ × Option ℚ) × String) :=
  [((0, some 35), "monthly"),
   ((35, some 95), "quarterly"),
   ((95, some 185), "semi-annual"),
   ((185, none), "annual")]

/-- `lower <= x < upper` for one range (with `x < inf` always true). -/
def inRange (x : ℚ) : ℚ × Option ℚ → Bool
  | (lo, some hi) => decide (lo ≤ x) && decide (x < hi)
  | (lo, none) => decide (lo ≤ x)

/-- The classification loop of `analyze_dividend_frequency` (lines 80-82):
first range (in insertion order) containing `x`, if any. -/
def classify_interval (x : ℚ) : Option String :=
  (INTERVAL_RANGES.find? (fun r => inRange x r.1)).map Prod.snd

/-- The average-interval selection of `analyze_dividend_frequency`
(lines 62-71): median of the positive recent-window gaps when
`np.sum(recent_mask[:-1]) >= 2`, else median of all valid gaps.
`none` models a NaN median of an empty selection. `today` is
`np.datetime64('now', 'D')`. -/
def computedInterval (divs : DivSeries) (today : ℤ) : Option ℚ :=
  if 2 ≤ (divs.map Prod.fst).dropLast.countP
      (fun d => decide (today - 1095 ≤ d)) then
    medianQ (((diffs ((divs.map Prod.fst).filter
        (fun d => decide (today - 1095 ≤ d)))).filter
        (fun g => decide (0 < g))).map (fun (g : ℤ) => (g : ℚ)))
  else
    medianQ ((validGaps divs).map (fun (g : ℤ) => (g : ℚ)))

/-- `DividendPatternAnalyzer.analyze_dividend_frequency`
(src/analysis/dividend/dividend_analysis.py, lines 32-88). Returns
`(frequency, interval)` with `none` for Python `None`. The coefficient of
variation computed at lines 76-77 is dead for the result and omitted; in
the integer-day embedding no step of the body can raise, so the
`except` wrapper (→ `("unknown", 0.0)`) is unreachable and omitted. -/
def analyze_dividend_frequency (divs : DivSeries) (today : ℤ) :
    Option String × Option ℚ :=
  if divs.length < 2 then (none, none)
  else if (validGaps divs).length < 2 then (some "insufficient_data", some 0)
  else
    match computedInterval divs today with
    | none => (some "unknown", some 0)  -- NaN: `not np.isfinite(avg_interval)`
    | some avg =>
      if avg ≤ 0 then (some "unknown", some 0)
      else
        match classify_interval avg with
        | some freq => (some freq, some avg)
        | none => (some "unknown", some avg)

/-- Number of projected cycles in `predict_future_dates` (line 268). -/
def numLoops (payout_timing : String) : Nat :=
  if payout_timing = "monthly" then 14 else 6

/-- The calendar-anchored projection loop of `predict_future_dates`
(lines 292-295): starting after `start`, successively add `step` days,
`n` times. -/
def projectFrom (start step : ℤ) : Nat → List ℤ
  | 0 => []
  | n + 1 => (start + step) :: projectFrom (start + step) step n

/-- The calendar check of `predict_future_dates` (lines 277-287): the
confirmed next payment date, provided the calendar is a truthy dict, both
fields are date-like objects, and the (normalized) payment date is
`>= today`. -/
def calendarFutureSeed (today : ℤ) (calendar : Option Calendar) : Option ℤ :=
  match calendar with
  | some cal =>
    match cal.divDate, cal.exDate with
    | some (.dateVal dd), some (.dateVal _) =>
      if today ≤ dd then some dd else none
    | _, _ => none
  | none => none

/-- `DividendPatternAnalyzer.predict_future_dates`
(src/analysis/dividend/dividend_analysis.py, lines 248-313). Dates in the
result are day numbers (the source emits their ISO strings). -/
def predict_future_dates (today : ℤ) (gap_days : ℤ) (avg_interval : ℚ)
    (last_ex_date : Option ℤ) (calendar : Option Calendar)
    (payout_timing : String) : Option (List ℤ) :=
  let num_loops := numLoops payout_timing
  match last_ex_date with
  | none => none
  | some last_ex =>
    if avg_interval ≤ 0 then none
    else
      match calendarFutureSeed today calendar with
      | some dd =>
        -- seed with the confirmed date, then add round(avg_interval) each time
        some (dd :: projectFrom dd (pyRound avg_interval) (num_loops - 1))
      | none =>
        -- project from the last ex-dividend date, keeping payouts >= today
        let future_dates := (List.range num_loops).filterMap (fun (i : ℕ) =>
          let next_ex := last_ex + pyRound (avg_interval * ((i : ℚ) + 1))
          let next_payout := next_ex + gap_days
          if today ≤ next_payout then some next_payout else none)
        if future_dates.isEmpty then none else some future_dates

/-- `LastDividendEstimate`: the result dict of `get_last_dividend_info`
(`date` as a day number where the source emits its ISO string). -/
structure LastDivInfo where
  date : Option ℤ
  amount : Option ℚ
  estimation_method : String
deriving DecidableEq, Repr

/-- The diagnostic suffix built at lines 408-410 (format of the numbers is
abstracted; its content is never branched on). -/
def patternInfo (pattern : ExDividendPattern) (staleness_threshold : ℚ) :
    String :=
  "[pattern: mean_day=" ++ toString pattern.mean_day_of_month ++
  ", std=" ++ toString pattern.std_dev_days ++
  ", threshold=" ++ toString staleness_threshold ++ "]"

/-- The final two cases of `get_last_dividend_info` (lines 476-489):
return the basic estimate `estimated_payout` when it is `<= today`, else
fail with the diagnostic record. -/
def lastDivStep3 (today estimated_payout : ℤ) (last_amount : ℚ)
    (pattern : ExDividendPattern) (staleness_threshold : ℚ) :
    Except String LastDivInfo :=
  if estimated_payout ≤ today then
    .ok ⟨some estimated_payout, some last_amount, "ex_dividend_plus_gap_basic"⟩
  else
    .ok ⟨none, none,
      "estimation_failed " ++ patternInfo pattern staleness_threshold⟩

/-- The retry with the second-last ex-dividend date (lines 461-474).
`stale` is the already-computed value of
`days_since_estimated > avg_interval * staleness_threshold`. -/
def lastDivStep2 (today : ℤ) (dividends : List (RawDate × ℚ))
    (estimated_payout : ℤ) (last_amount : ℚ) (gap_days : ℤ)
    (pattern : ExDividendPattern) (staleness_threshold : ℚ) (stale : Bool) :
    Except String LastDivInfo :=
  if estimated_payout > today ∨ stale = true then
    if 1 < dividends.length then
      match dividends[dividends.length - 2]? with
      | some (prevRaw, prev_amount) =>
        match normalize_date prevRaw with
        | .error e => .error e
        | .ok prev_ex_div =>
          if prev_ex_div + gap_days ≤ today then
            .ok ⟨some (prev_ex_div + gap_days), some prev_amount,
                 "previous_ex_dividend_plus_gap"⟩
          else lastDivStep3 today estimated_payout last_amount pattern
            staleness_threshold
      | none => lastDivStep3 today estimated_payout last_amount pattern
          staleness_threshold
    else lastDivStep3 today estimated_payout last_amount pattern
      staleness_threshold
  else lastDivStep3 today estimated_payout last_amount pattern
    staleness_threshold

/-- The staleness case of the series-based estimate (lines 450-459): when
the estimate looks one cycle too old, add one average interval; if still
not `<= today` (or not stale) continue with the retry and basic cases. -/
def lastDivStaleCheck (today : ℤ) (dividends : List (RawDate × ℚ))
    (estimated_payout : ℤ) (last_amount : ℚ) (gap_days : ℤ)
    (avg_interval : ℚ) (pattern : ExDividendPattern)
    (staleness_threshold : ℚ) : Except String LastDivInfo :=
  if ((today - estimated_payout : ℤ) : ℚ) >
      avg_interval * staleness_threshold then
    if estimated_payout + pyInt avg_interval ≤ today then
      .ok ⟨some (estimated_payout + pyInt avg_interval), some last_amount,
           "ex_dividend_plus_interval_projection"⟩
    else lastDivStep2 today dividends estimated_payout last_amount gap_days
      pattern staleness_threshold true
  else lastDivStep2 today dividends estimated_payout last_amount gap_days
    pattern staleness_threshold false

/-- The series-based tail of `get_last_dividend_info` (lines 444-489),
reached when the calendar branch did not return. `last_ex_div` and
`last_amount` come from the final series entry;
`estimated_payout = last_ex_div + gap_days`. -/
def lastDivSeriesBranch (today : ℤ) (dividends : List (RawDate × ℚ))
    (last_ex_div : ℤ) (last_amount : ℚ) (gap_days : ℤ) (avg_interval : ℚ)
    (pattern : ExDividendPattern) (staleness_threshold : ℚ) :
    Except String LastDivInfo :=
  lastDivStaleCheck today dividends (last_ex_div + gap_days) last_amount
    gap_days avg_interval pattern staleness_threshold

/-- The calendar branch of `get_last_dividend_info` (lines 415-442):
`some r` when one of its two returns fires, `none` when control falls
through to the series-based estimate. -/
def lastDivCalendarBranch (today : ℤ) (calendar : Option Calendar)
    (last_amount : ℚ) (avg_interval : ℚ) (staleness_threshold : ℚ) :
    Option LastDivInfo :=
  match calendar with
  | some cal =>
    match cal.divDate, cal.exDate with
    | some (.dateVal cal_div_date), some (.dateVal _) =>
      if ((today - cal_div_date : ℤ) : ℚ) >
          avg_interval * staleness_threshold then
        if cal_div_date + pyInt avg_interval ≤ today then
          some ⟨some (cal_div_date + pyInt avg_interval), some last_amount,
                "calendar_date_plus_one_interval"⟩
        else none
      else if cal_div_date < today then
        some ⟨some cal_div_date, some last_amount, "direct_from_calendar"⟩
      else none
    | _, _ => none
  | none => none

/-- The body of `get_last_dividend_info` inside its `try:` (lines 399-489);
a raised exception is an `Except.error`. -/
def get_last_dividend_info_body (today : ℤ) (dividends : List (RawDate × ℚ))
    (calendar : Option Calendar) (gap_days : ℤ) (avg_interval : ℚ)
    (pattern : ExDividendPattern) (staleness_threshold : ℚ) :
    Except String LastDivInfo :=
  match dividends.getLast? with
  | none => .ok ⟨none, none, "no_dividend_history"⟩
  | some (lastRaw, last_amount) =>
    match normalize_date lastRaw with
    | .error e => .error e
    | .ok last_ex_div =>
      match lastDivCalendarBranch today calendar last_amount avg_interval
          staleness_threshold with
      | some r => .ok r
      | none =>
        lastDivSeriesBranch today dividends last_ex_div last_amount gap_days
          avg_interval pattern staleness_threshold

/-- `DividendPatternAnalyzer.get_last_dividend_info`
(src/analysis/dividend/dividend_analysis.py, lines 368-497): the body with
its catch-all `except` converting any exception into the error record. -/
def get_last_dividend_info (today : ℤ) (dividends : List (RawDate × ℚ))
    (calendar : Option Calendar) (gap_days : ℤ) (avg_interval : ℚ)
    (pattern : ExDividendPattern) (staleness_threshold : ℚ) : LastDivInfo :=
  match get_last_dividend_info_body today dividends calendar gap_days
      avg_interval pattern staleness_threshold with
  | .ok r => r
  | .error e => ⟨none, none, "error_during_processing: " ++ e⟩

/-- A stock-info mapping: lookup by key, `none` for a missing key
(`dict.get`). Values are modelled as numerics (the fields the calculators
read are numeric). -/
abbrev StockInfo := String → Option ℚ

/-- `get_redundant_field` (src/utils/get_redundant_field.py): first truthy
value under the primary key, then under each backup key, else `None`. -/
def get_redundant_field (data : StockInfo) (primary_key : String)
    (backup_keys : List String) : Option ℚ :=
  match truthyQ (data primary_key) with
  | some v => some v
  | none =>
    backup_keys.foldr
      (fun key rest =>
        match truthyQ (data key) with
        | some v => some v
        | none => rest) none

/-- `DividendFrequency.PAYMENTS_PER_YEAR` (src/models/dividend_models.py). -/
def PAYMENTS_PER_YEAR : List (String × Nat) :=
  [("monthly", 12), ("quarterly", 4), ("semi-annual", 2), ("annual", 1)]

/-- `DividendFrequency.get_payments_needed` (also covering
`is_valid_frequency`: valid iff the lookup succeeds). -/
def get_payments_needed (frequency : String) : Option Nat :=
  (PAYMENTS_PER_YEAR.find? (fun p => p.1 = frequency)).map Prod.snd

/-- `Series.tail(n)`: the last `n` entries. -/
def tailN (n : Nat) (l : DivSeries) : DivSeries := l.drop (l.length - n)

/-- `DividendCalculator._annualize_dividends`
(src/analysis/dividend/dividend_calculations.py, lines 104-132). -/
def annualize_dividends (recent_divs : DivSeries) (frequency : String) :
    Option ℚ :=
  match get_payments_needed frequency with
  | none => none
  | some n_payments =>
    let recent_year := tailN n_payments recent_divs
    if 0 < recent_year.length then
      some (round4 ((recent_year.map Prod.snd).sum *
        ((n_payments : ℚ) / (recent_year.length : ℚ))))
    else none

/-- Method 3 of `calculate_dividend_rate` (lines 47-53): annualize the
trailing series if the frequency is known, else fail. -/
def rateMethod3 (dividends : DivSeries) (frequency : Option String) :
    Option ℚ × String :=
  match frequency with
  | some f =>
    if dividends.isEmpty then (none, "failed_not_enough_data")
    else
      match truthyQ (annualize_dividends (tailN 12 dividends) f) with
      | some annual_rate =>
        (some annual_rate, "historical_" ++ f ++ "_calculation")
      | none => (none, "failed_not_enough_data")
  | none => (none, "failed_not_enough_data")

/-- Methods 2 and 3 of `calculate_dividend_rate` (lines 43-53): the code
reached when method 1 does not return. -/
def rateMethod23 (price : Option ℚ) (info : StockInfo)
    (dividends : DivSeries) (frequency : Option String) :
    Option ℚ × String :=
  match truthyQ price with
  | some p =>
    match get_redundant_field info "dividendYield" ["yield"] with
    | some yield_value =>
      (some (round4 (p * yield_value)), "price_and_yield_product")
    | none => rateMethod3 dividends frequency
  | none => rateMethod3 dividends frequency

/-- `DividendCalculator.calculate_dividend_rate`
(src/analysis/dividend/dividend_calculations.py, lines 17-53). Walrus-`if`
truthiness is `truthyQ`. -/
def calculate_dividend_rate (price : Option ℚ) (info : StockInfo)
    (dividends : DivSeries) (frequency : Option String) :
    Option ℚ × String :=
  -- Method 1: direct from info if truthy
  match truthyQ (info "dividendRate") with
  | some rate => (some rate, "direct_from_info")
  | none => rateMethod23 price info dividends frequency

/-- `DividendCalculator.calculate_payout_ratio`
(src/analysis/dividend/dividend_calculations.py, lines 58-99). -/
def calculate_payout_ratio (info : StockInfo) (dividend_rate : Option ℚ) :
    Option ℚ × String :=
  match truthyQ (info "payoutRatio") with
  | some ratio => (some ratio, "direct_from_info")
  | none =>
    match truthyQ dividend_rate with
    | none => (none, "no_dividend_rate")
    | some dr =>
      -- Method 3: dividend rate / (net income / shares outstanding)
      let method3 : Option ℚ × String :=
        match info "sharesOutstanding", info "netIncome" with
        | some shares, some net_income =>
          if shares ≠ 0 ∧ net_income ≠ 0 then
            let net_income_per_share := net_income / shares
            if net_income_per_share ≠ 0 then
              (some (round4 (dr / net_income_per_share)), "income_based")
            else (none, "failed_not_enough_data")
          else (none, "failed_not_enough_data")
        | _, _ => (none, "failed_not_enough_data")
      -- Method 2: dividend rate / EPS
      match truthyQ (info "trailingEps") with
      | some eps =>
        if eps ≠ 0 then (some (round4 (dr / eps)), "eps_based")
        else method3
      | none => method3

/-! ## Theorems -/

/-- Helper: the third calendar check either falls back or returns a
`div_predicted_direct_calendar` record with gap in [0, 60]. -/
theorem gapThirdCheck_cases (avg : Option ℚ) (dd ed : ℤ) :
    gapThirdCheck avg dd ed = gapFallback avg ∨
    ∃ g : ℤ, 0 ≤ g ∧ g ≤ 60 ∧ gapThirdCheck avg dd ed =
      ⟨(g : ℚ), "moderate", "div_predicted_direct_calendar"⟩ := by
  unfold gapThirdCheck
  rcases h : truthyQ avg with _ | a
  · exact Or.inl rfl
  · dsimp only
    split
    · next hg => exact Or.inr ⟨_, hg.1, hg.2, rfl⟩
    · exact Or.inl rfl

/-- Helper: the full calendar-backed branch either falls back or returns a
record with integer gap in [0, 60]. -/
theorem gapCalendarCase_cases (avg : Option ℚ) (dd ed : ℤ) :
    gapCalendarCase avg dd ed = gapFallback avg ∨
    ∃ g : ℤ, 0 ≤ g ∧ g ≤ 60 ∧
      (gapCalendarCase avg dd ed = ⟨(g : ℚ), "high", "direct_calendar"⟩ ∨
       gapCalendarCase avg dd ed =
          ⟨(g : ℚ), "moderate", "exdiv_predicted_direct_calendar"⟩ ∨
       gapCalendarCase avg dd ed =
          ⟨(g : ℚ), "moderate", "div_predicted_direct_calendar"⟩) := by
  have third := gapThirdCheck_cases avg dd ed
  unfold gapCalendarCase
  split
  · split
    · split
      · rename_i hg
        exact Or.inr ⟨_, hg.1, hg.2, Or.inr (Or.inl rfl)⟩
      · rcases third with h3 | ⟨g, h0, h60, h3⟩
        · exact Or.inl h3
        · exact Or.inr ⟨g, h0, h60, Or.inr (Or.inr h3)⟩
    · split
      · rename_i hg
        exact Or.inr ⟨_, hg.1, hg.2, Or.inl rfl⟩
      · rcases third with h3 | ⟨g, h0, h60, h3⟩
        · exact Or.inl h3
        · exact Or.inr ⟨g, h0, h60, Or.inr (Or.inr h3)⟩
  · split
    · rename_i hg
      exact Or.inr ⟨_, hg.1, hg.2, Or.inl rfl⟩
    · rcases third with h3 | ⟨g, h0, h60, h3⟩
      · exact Or.inl h3
      · exact Or.inr ⟨g, h0, h60, Or.inr (Or.inr h3)⟩

/-- Helper: every result of `analyze_dividend_gap` is either the fallback
record or a calendar-backed record whose integer gap lies in [0, 60]. -/
theorem analyze_dividend_gap_cases (calendar : Option Calendar)
    (avg : Option ℚ) :
    analyze_dividend_gap calendar avg = gapFallback avg ∨
    ∃ g : ℤ, 0 ≤ g ∧ g ≤ 60 ∧
      (analyze_dividend_gap calendar avg =
          ⟨(g : ℚ), "high", "direct_calendar"⟩ ∨
       analyze_dividend_gap calendar avg =
          ⟨(g : ℚ), "moderate", "exdiv_predicted_direct_calendar"⟩ ∨
       analyze_dividend_gap calendar avg =
          ⟨(g : ℚ), "moderate", "div_predicted_direct_calendar"⟩) := by
  unfold analyze_dividend_gap
  split
  · exact Or.inl rfl
  · split
    · exact gapCalendarCase_cases avg _ _
    · exact Or.inl rfl

/-- C2: `analyze_dividend_gap` always returns one of the four methods; on
every calendar-backed path (`direct_calendar`,
`exdiv_predicted_direct_calendar`, `div_predicted_direct_calendar`) the
gap lies in [0, 60]; on the only other path it returns exactly
`min(34, floor(avg / 3))` when the average interval is truthy, and
exactly 34 when it is absent or zero, with confidence `"low"` and method
`"default_fallback_guess"`. -/
theorem C2_gap_estimator (calendar : Option Calendar) (avg : Option ℚ) :
    ((analyze_dividend_gap calendar avg).estimation_method = "direct_calendar" ∨
     (analyze_dividend_gap calendar avg).estimation_method =
       "exdiv_predicted_direct_calendar" ∨
     (analyze_dividend_gap calendar avg).estimation_method =
       "div_predicted_direct_calendar" ∨
     (analyze_dividend_gap calendar avg).estimation_method =
       "default_fallback_guess") ∧
    (((analyze_dividend_gap calendar avg).estimation_method = "direct_calendar" ∨
      (analyze_dividend_gap calendar avg).estimation_method =
        "exdiv_predicted_direct_calendar" ∨
      (analyze_dividend_gap calendar avg).estimation_method =
        "div_predicted_direct_calendar") →
     0 ≤ (analyze_dividend_gap calendar avg).gap_days ∧
       (analyze_dividend_gap calendar avg).gap_days ≤ 60) ∧
    ((analyze_dividend_gap calendar avg).estimation_method =
       "default_fallback_guess" →
     (analyze_dividend_gap calendar avg).confidence = "low" ∧
     (∀ a : ℚ, avg = some a → a ≠ 0 →
        (analyze_dividend_gap calendar avg).gap_days =
          min 34 ((⌊a / 3⌋ : ℤ) : ℚ)) ∧
     ((avg = none ∨ avg = some 0) →
        (analyze_dividend_gap calendar avg).gap_days = 34)) := by
  rcases analyze_dividend_gap_cases calendar avg with h | ⟨g, h0, h60, h⟩
  · rw [h]
    refine ⟨Or.inr (Or.inr (Or.inr rfl)), ?_, ?_⟩
    · rintro (hm | hm | hm) <;> simp only [gapFallback] at hm <;>
        exact absurd hm (by decide)
    · intro _
      refine ⟨rfl, ?_, ?_⟩
      · intro a ha hne
        subst ha
        simp [gapFallback, truthyQ, hne]
      · rintro (ha | ha) <;> subst ha <;> simp [gapFallback, truthyQ]
  · have hcast : ∀ r : DividendGapResult, r.gap_days = (g : ℚ) →
        0 ≤ r.gap_days ∧ r.gap_days ≤ 60 := by
      intro r hr
      rw [hr]
      constructor
      · exact_mod_cast h0
      · exact_mod_cast h60
    rcases h with h | h | h <;> rw [h]
    · exact ⟨Or.inl rfl, fun _ => hcast _ rfl,
        fun hm => absurd (show "direct_calendar" = "default_fallback_guess"
          from hm) (by decide)⟩
    · exact ⟨Or.inr (Or.inl rfl), fun _ => hcast _ rfl,
        fun hm => absurd (show "exdiv_predicted_direct_calendar" =
          "default_fallback_guess" from hm) (by decide)⟩
    · exact ⟨Or.inr (Or.inr (Or.inl rfl)), fun _ => hcast _ rfl,
        fun hm => absurd (show "div_predicted_direct_calendar" =
          "default_fallback_guess" from hm) (by decide)⟩
/-- Witness for C2 at concrete inputs: a calendar with payment date 22
days after the ex-date (direct_calendar path), and the fallback with
average interval 90. -/
theorem C2_gap_estimator_witness :
    (0 ≤ (analyze_dividend_gap
        (some ⟨some (.dateVal 22), some (.dateVal 0)⟩) none).gap_days ∧
     (analyze_dividend_gap
        (some ⟨some (.dateVal 22), some (.dateVal 0)⟩) none).gap_days ≤ 60) ∧
    (analyze_dividend_gap none (some 90)).gap_days =
      min 34 ((⌊(90 : ℚ) / 3⌋ : ℤ) : ℚ) := by
  constructor
  · exact (C2_gap_estimator (some ⟨some (.dateVal 22), some (.dateVal 0)⟩)
      none).2.1 (Or.inl (by decide))
  · exact ((C2_gap_estimator none (some 90)).2.2 (by decide)).2.1 90 rfl
      (by decide)

/-- C7: a series with fewer than 2 entries yields `(None, None)`; a series
with at least 2 entries but fewer than 2 strictly positive finite
consecutive day-gaps yields `("insufficient_data", 0.0)`. -/
theorem C7_insufficient_data (divs : DivSeries) (today : ℤ) :
    (divs.length < 2 → analyze_dividend_frequency divs today = (none, none)) ∧
    (2 ≤ divs.length → (validGaps divs).length < 2 →
      analyze_dividend_frequency divs today =
        (some "insufficient_data", some 0)) := by
  constructor
  · intro h
    unfold analyze_dividend_frequency
    rw [if_pos h]
  · intro h2 hg
    unfold analyze_dividend_frequency
    rw [if_neg (by omega), if_pos hg]

/-- Witness for C7: the empty series, and a two-entry series with a
duplicate date (one zero gap). -/
theorem C7_insufficient_data_witness :
    analyze_dividend_frequency ([] : DivSeries) 0 = (none, none) ∧
    analyze_dividend_frequency [(5, 1), (5, 1)] 0 =
      (some "insufficient_data", some 0) :=
  ⟨(C7_insufficient_data [] 0).1 (by decide),
   (C7_insufficient_data [(5, 1), (5, 1)] 0).2 (by decide) (by decide)⟩

/-- Helper: a historical-method label never collides with
`"direct_from_info"` (the lengths differ for every frequency string). -/
theorem historical_label_ne (f : String) :
    "historical_" ++ f ++ "_calculation" ≠ "direct_from_info" := by
  intro h
  have hlen := congrArg String.length h
  rw [String.length_append, String.length_append] at hlen
  have h1 : "historical_".length = 11 := rfl
  have h2 : "_calculation".length = 12 := rfl
  have h3 : "direct_from_info".length = 16 := rfl
  omega

/-- Helper: method 2/3 of `calculate_dividend_rate` never reports
method 1's label. -/
theorem rateMethod23_snd_ne (price : Option ℚ) (info : StockInfo)
    (dividends : DivSeries) (frequency : Option String) :
    (rateMethod23 price info dividends frequency).2 ≠ "direct_from_info" := by
  have h3 : (rateMethod3 dividends frequency).2 ≠ "direct_from_info" := by
    unfold rateMethod3
    split
    · split
      · exact fun h => absurd h (by decide)
      · split
        · exact fun h => historical_label_ne _ h
        · exact fun h => absurd h (by decide)
    · exact fun h => absurd h (by decide)
  unfold rateMethod23
  split
  · split
    · exact fun h => absurd
        (show "price_and_yield_product" = "direct_from_info" from h) (by decide)
    · exact h3
  · exact h3

/-- C9: a present-but-zero `dividendRate` is skipped by method 1 and the
calculation falls through to the price-times-yield and historical methods;
a zero `dividendYield` together with a zero `yield` alias makes the field
lookup report absence, so method 2 is skipped too. -/
theorem C9_zero_rate_falls_through (price : Option ℚ) (info : StockInfo)
    (dividends : DivSeries) (frequency : Option String)
    (hz : info "dividendRate" = some 0) :
    calculate_dividend_rate price info dividends frequency =
      rateMethod23 price info dividends frequency ∧
    (calculate_dividend_rate price info dividends frequency).2 ≠
      "direct_from_info" ∧
    (info "dividendYield" = some 0 → info "yield" = some 0 →
      get_redundant_field info "dividendYield" ["yield"] = none ∧
      calculate_dividend_rate price info dividends frequency =
        rateMethod3 dividends frequency) := by
  have hz' : truthyQ (info "dividendRate") = none := by
    rw [hz]; rfl
  have hmain : calculate_dividend_rate price info dividends frequency =
      rateMethod23 price info dividends frequency := by
    unfold calculate_dividend_rate
    rw [hz']
  refine ⟨hmain, ?_, ?_⟩
  · rw [hmain]
    exact rateMethod23_snd_ne price info dividends frequency
  · intro hy1 hy2
    have hgrf : get_redundant_field info "dividendYield" ["yield"] = none := by
      unfold get_redundant_field
      rw [hy1]
      simp only [truthyQ, if_pos rfl, List.foldr]
      rw [hy2]
      simp [truthyQ]
    refine ⟨hgrf, ?_⟩
    rw [hmain]
    unfold rateMethod23
    rw [hgrf]
    split <;> rfl

/-- Witness for C9: price 10, info with zero `dividendRate`,
`dividendYield` and `yield`, a one-entry series, quarterly frequency. -/
theorem C9_zero_rate_falls_through_witness :
    calculate_dividend_rate (some 10)
      (fun _ => some 0) [(0, (2 : ℚ))] (some "quarterly") =
      rateMethod3 [(0, (2 : ℚ))] (some "quarterly") ∧
    (calculate_dividend_rate (some 10)
      (fun _ => some 0) [(0, (2 : ℚ))] (some "quarterly")).2 ≠
      "direct_from_info" :=
  ⟨((C9_zero_rate_falls_through (some 10) (fun _ => some 0) [(0, (2 : ℚ))]
      (some "quarterly") rfl).2.2 rfl rfl).2,
   (C9_zero_rate_falls_through (some 10) (fun _ => some 0) [(0, (2 : ℚ))]
      (some "quarterly") rfl).2.1⟩

/-- C10: with no truthy `payoutRatio` and a `None`-or-zero dividend rate,
`calculate_payout_ratio` returns `(None, "no_dividend_rate")` immediately,
without attempting the EPS-based or net-income-per-share methods. -/
theorem C10_payout_requires_rate (info : StockInfo)
    (dividend_rate : Option ℚ)
    (hp : truthyQ (info "payoutRatio") = none)
    (hr : dividend_rate = none ∨ dividend_rate = some 0) :
    calculate_payout_ratio info dividend_rate = (none, "no_dividend_rate") := by
  unfold calculate_payout_ratio
  rw [hp]
  rcases hr with h | h <;> subst h <;> rfl

/-- Witness for C10: an info mapping with every field absent and a zero
dividend rate. -/
theorem C10_payout_requires_rate_witness :
    calculate_payout_ratio (fun _ => none) (some 0) =
      (none, "no_dividend_rate") :=
  C10_payout_requires_rate (fun _ => none) (some 0) rfl (Or.inr rfl)

/-- Helper: the basic/failure cases never return a future date. -/
theorem lastDivStep3_date_le (today estimated_payout : ℤ) (last_amount : ℚ)
    (pattern : ExDividendPattern) (thr : ℚ) (r : LastDivInfo) (d : ℤ)
    (h : lastDivStep3 today estimated_payout last_amount pattern thr = .ok r)
    (hd : r.date = some d) : d ≤ today := by
  unfold lastDivStep3 at h
  split at h
  · rename_i hle
    injection h with h
    subst h
    exact (Option.some.inj hd) ▸ hle
  · injection h with h
    subst h
    exact (Option.noConfusion (show (none : Option ℤ) = some d from hd))

/-- Helper: the second-last-entry retry never returns a future date. -/
theorem lastDivStep2_date_le (today : ℤ) (dividends : List (RawDate × ℚ))
    (estimated_payout : ℤ) (last_amount : ℚ) (gap_days : ℤ)
    (pattern : ExDividendPattern) (thr : ℚ) (stale : Bool) (r : LastDivInfo)
    (d : ℤ)
    (h : lastDivStep2 today dividends estimated_payout last_amount gap_days
      pattern thr stale = .ok r)
    (hd : r.date = some d) : d ≤ today := by
  unfold lastDivStep2 at h
  split at h
  · split at h
    · split at h
      · split at h
        · exact Except.noConfusion h
        · split at h
          · rename_i hle
            injection h with h
            subst h
            exact (Option.some.inj hd) ▸ hle
          · exact lastDivStep3_date_le _ _ _ _ _ _ _ h hd
      · exact lastDivStep3_date_le _ _ _ _ _ _ _ h hd
    · exact lastDivStep3_date_le _ _ _ _ _ _ _ h hd
  · exact lastDivStep3_date_le _ _ _ _ _ _ _ h hd

/-- Helper: the whole series-based estimate never returns a future date. -/
theorem lastDivStaleCheck_date_le (today : ℤ)
    (dividends : List (RawDate × ℚ)) (estimated_payout : ℤ)
    (last_amount : ℚ) (gap_days : ℤ) (avg : ℚ)
    (pattern : ExDividendPattern) (thr : ℚ) (r : LastDivInfo) (d : ℤ)
    (h : lastDivStaleCheck today dividends estimated_payout last_amount
      gap_days avg pattern thr = .ok r)
    (hd : r.date = some d) : d ≤ today := by
  unfold lastDivStaleCheck at h
  split at h
  · split at h
    · rename_i hle
      injection h with h
      subst h
      exact (Option.some.inj hd) ▸ hle
    · exact lastDivStep2_date_le _ _ _ _ _ _ _ _ _ _ h hd
  · exact lastDivStep2_date_le _ _ _ _ _ _ _ _ _ _ h hd

/-- Helper: the calendar branch never returns a future date. -/
theorem lastDivCalendarBranch_date_le (today : ℤ)
    (calendar : Option Calendar) (last_amount : ℚ) (avg : ℚ) (thr : ℚ)
    (r : LastDivInfo) (d : ℤ)
    (h : lastDivCalendarBranch today calendar last_amount avg thr = some r)
    (hd : r.date = some d) : d ≤ today := by
  unfold lastDivCalendarBranch at h
  split at h
  · split at h
    · split at h
      · split at h
        · rename_i hle
          injection h with h
          subst h
          exact (Option.some.inj hd) ▸ hle
        · exact Option.noConfusion h
      · split at h
        · rename_i hlt
          injection h with h
          subst h
          exact (Option.some.inj hd) ▸ le_of_lt hlt
        · exact Option.noConfusion h
    · exact Option.noConfusion h
  · exact Option.noConfusion h

/-- C1: whenever `get_last_dividend_info` returns a result whose date is
present, that date is `<= today`; in particular every dated return branch
(`calendar_date_plus_one_interval`, `direct_from_calendar`,
`ex_dividend_plus_interval_projection`, `previous_ex_dividend_plus_gap`,
`ex_dividend_plus_gap_basic`) satisfies the bound. -/
theorem C1_last_dividend_date_le_today (today : ℤ)
    (dividends : List (RawDate × ℚ)) (calendar : Option Calendar)
    (gap_days : ℤ) (avg_interval : ℚ) (pattern : ExDividendPattern)
    (staleness_threshold : ℚ) (d : ℤ)
    (h : (get_last_dividend_info today dividends calendar gap_days
      avg_interval pattern staleness_threshold).date = some d) :
    d ≤ today := by
  unfold get_last_dividend_info at h
  rcases hb : get_last_dividend_info_body today dividends calendar gap_days
      avg_interval pattern staleness_threshold with e | r
  · rw [hb] at h
    exact Option.noConfusion h
  · rw [hb] at h
    unfold get_last_dividend_info_body at hb
    split at hb
    · injection hb with hb
      subst hb
      exact Option.noConfusion h
    · split at hb
      · exact Except.noConfusion hb
      · split at hb
        · injection hb with hb
          subst hb
          rename_i hcal
          exact lastDivCalendarBranch_date_le _ _ _ _ _ _ _ hcal h
        · exact lastDivStaleCheck_date_le _ _ _ _ _ _ _ _ _ _ hb h

/-- Witness for C1: series with last ex-date at day 50, gap 10, average
interval 30, threshold 1.1, today = day 100: the stale estimate 60 is
projected one interval forward to day 90 which is `<= 100`. -/
theorem C1_last_dividend_date_le_today_witness :
    (get_last_dividend_info 100 [(.val 50, 1)] none 10 30 ⟨0, 0, 0, 0⟩
      (11/10)).date = some 90 ∧ (90 : ℤ) ≤ 100 := by
  have hdate : (get_last_dividend_info 100 [(.val 50, 1)] none 10 30
      ⟨0, 0, 0, 0⟩ (11/10)).date = some 90 := by
    norm_num [get_last_dividend_info, get_last_dividend_info_body,
      lastDivCalendarBranch, lastDivSeriesBranch, lastDivStaleCheck,
      lastDivStep2, lastDivStep3, normalize_date, pyInt, List.getLast?]
  exact ⟨hdate,
    C1_last_dividend_date_le_today 100 [(.val 50, 1)] none 10 30
      ⟨0, 0, 0, 0⟩ (11/10) 90 hdate⟩

/-- C5: any exception raised inside `get_last_dividend_info` is caught and
converted into `{date: None, amount: None, estimation_method:
"error_during_processing: <message>"}`; the function never propagates
an exception (its embedding is total by construction). -/
theorem C5_error_caught (today : ℤ) (dividends : List (RawDate × ℚ))
    (calendar : Option Calendar) (gap_days : ℤ) (avg_interval : ℚ)
    (pattern : ExDividendPattern) (staleness_threshold : ℚ) (e : String)
    (h : get_last_dividend_info_body today dividends calendar gap_days
      avg_interval pattern staleness_threshold = .error e) :
    get_last_dividend_info today dividends calendar gap_days avg_interval
      pattern staleness_threshold =
      ⟨none, none, "error_during_processing: " ++ e⟩ := by
  unfold get_last_dividend_info
  rw [h]

/-- Witness for C5: a series entry whose date fails normalization raises,
and the caught error is reported in the method string. -/
theorem C5_error_caught_witness :
    get_last_dividend_info 0 [(.bad "boom", 1)] none 0 0 ⟨0, 0, 0, 0⟩ 0 =
      ⟨none, none, "error_during_processing: " ++ "boom"⟩ :=
  C5_error_caught 0 [(.bad "boom", 1)] none 0 0 ⟨0, 0, 0, 0⟩ 0 "boom" rfl

/-- C3 counterexample: with a calendar supplying a future payment date
(day 1005 ≥ today = 1000) but no ex-dividend date, `predict_future_dates`
does NOT seed its output with the calendar date: the calendar-anchored
path additionally requires a date-valued "Ex-Dividend Date", so the
output comes from the pure projection path instead. -/
theorem C3_counterexample :
    predict_future_dates 1000 30 90 (some 900)
      (some ⟨some (.dateVal 1005), none⟩) "quarterly" =
      some [1020, 1110, 1200, 1290, 1380, 1470] ∧
    predict_future_dates 1000 30 90 (some 900)
      (some ⟨some (.dateVal 1005), none⟩) "quarterly" ≠
      some (1005 :: projectFrom 1005 (pyRound 90)
        (numLoops "quarterly" - 1)) := by
  have hrange : List.range (numLoops "quarterly") = [0, 1, 2, 3, 4, 5] := rfl
  have heval : predict_future_dates 1000 30 90 (some 900)
      (some ⟨some (.dateVal 1005), none⟩) "quarterly" =
      some [1020, 1110, 1200, 1290, 1380, 1470] := by
    unfold predict_future_dates calendarFutureSeed
    dsimp only
    rw [if_neg (by norm_num : ¬(90 : ℚ) ≤ 0)]
    rw [hrange]
    norm_num [pyRound, List.filterMap]
  refine ⟨heval, ?_⟩
  rw [heval]
  have hproj : (1005 : ℤ) :: projectFrom 1005 (pyRound 90)
      (numLoops "quarterly" - 1) =
      [1005, 1095, 1185, 1275, 1365, 1455] := by
    norm_num [projectFrom, numLoops, pyRound]
  rw [hproj]
  intro h
  exact absurd (List.head_eq_of_cons_eq (Option.some.inj h)) (by decide)

/-- C3 (amended): with a last ex-date and average interval > 0, whenever
the calendar supplies BOTH a date-valued payment date and a date-valued
ex-dividend date and the payment date is ≥ today, `predict_future_dates`
seeds its output with that calendar date and produces the remaining
cycles by repeatedly adding `round(average_interval)` days, returning
this list without filtering any of the appended dates. -/
theorem C3_calendar_seeded_projection (today gap_days : ℤ) (avg : ℚ)
    (last_ex dd ed : ℤ) (cal : Calendar) (timing : String)
    (hdd : cal.divDate = some (.dateVal dd))
    (hed : cal.exDate = some (.dateVal ed))
    (havg : 0 < avg) (hfut : today ≤ dd) :
    predict_future_dates today gap_days avg (some last_ex) (some cal)
      timing =
      some (dd :: projectFrom dd (pyRound avg) (numLoops timing - 1)) := by
  unfold predict_future_dates calendarFutureSeed
  dsimp only
  rw [if_neg (not_le.mpr havg), hdd, hed]
  dsimp only
  rw [if_pos hfut]

/-- Witness for the amended C3 at a concrete input. -/
theorem C3_calendar_seeded_projection_witness :
    predict_future_dates 0 0 1 (some 0)
      (some ⟨some (.dateVal 5), some (.dateVal 1)⟩) "quarterly" =
      some (5 :: projectFrom 5 (pyRound 1) (numLoops "quarterly" - 1)) :=
  C3_calendar_seeded_projection 0 0 1 0 5 1
    ⟨some (.dateVal 5), some (.dateVal 1)⟩ "quarterly" rfl rfl
    (by norm_num) (by decide)

/-- C6: with a last ex-date and average interval > 0 and no usable future
calendar payment date, `predict_future_dates` returns exactly the dates
`last_ex + round(avg × i) + gap_days` for `i = 1..horizon` that are
`≥ today` (in order of `i`), `none` when no such date exists; hence no
returned date on this path is `< today`. -/
theorem C6_pure_projection (today gap_days : ℤ) (avg : ℚ) (last_ex : ℤ)
    (calendar : Option Calendar) (timing : String)
    (havg : 0 < avg)
    (hcal : calendarFutureSeed today calendar = none) :
    (predict_future_dates today gap_days avg (some last_ex) calendar
        timing =
      (if ((List.range (numLoops timing)).filterMap (fun (i : ℕ) =>
            if today ≤ last_ex + pyRound (avg * ((i : ℚ) + 1)) + gap_days
            then some (last_ex + pyRound (avg * ((i : ℚ) + 1)) + gap_days)
            else none)).isEmpty = true then none
       else some ((List.range (numLoops timing)).filterMap (fun (i : ℕ) =>
            if today ≤ last_ex + pyRound (avg * ((i : ℚ) + 1)) + gap_days
            then some (last_ex + pyRound (avg * ((i : ℚ) + 1)) + gap_days)
            else none)))) ∧
    (∀ ds, predict_future_dates today gap_days avg (some last_ex) calendar
        timing = some ds → ∀ d ∈ ds, today ≤ d) := by
  have hmain : predict_future_dates today gap_days avg (some last_ex)
      calendar timing =
      (if ((List.range (numLoops timing)).filterMap (fun (i : ℕ) =>
            if today ≤ last_ex + pyRound (avg * ((i : ℚ) + 1)) + gap_days
            then some (last_ex + pyRound (avg * ((i : ℚ) + 1)) + gap_days)
            else none)).isEmpty = true then none
       else some ((List.range (numLoops timing)).filterMap (fun (i : ℕ) =>
            if today ≤ last_ex + pyRound (avg * ((i : ℚ) + 1)) + gap_days
            then some (last_ex + pyRound (avg * ((i : ℚ) + 1)) + gap_days)
            else none))) := by
    unfold predict_future_dates
    dsimp only
    rw [hcal, if_neg (not_le.mpr havg)]
  refine ⟨hmain, ?_⟩
  intro ds hds d hd
  rw [hmain] at hds
  split at hds
  · exact Option.noConfusion hds
  · rw [← Option.some.inj hds] at hd
    obtain ⟨i, _, hfi⟩ := List.mem_filterMap.mp hd
    split at hfi
    · rename_i hle
      exact (Option.some.inj hfi) ▸ hle
    · exact Option.noConfusion hfi

/-- Witness for C6 at a concrete input (no calendar). -/
theorem C6_pure_projection_witness :
    predict_future_dates 0 0 1 (some 0) none "quarterly" =
      (if ((List.range (numLoops "quarterly")).filterMap (fun (i : ℕ) =>
            if (0 : ℤ) ≤ 0 + pyRound (1 * ((i : ℚ) + 1)) + 0
            then some ((0 : ℤ) + pyRound (1 * ((i : ℚ) + 1)) + 0)
            else none)).isEmpty = true then none
       else some ((List.range (numLoops "quarterly")).filterMap (fun (i : ℕ) =>
            if (0 : ℤ) ≤ 0 + pyRound (1 * ((i : ℚ) + 1)) + 0
            then some ((0 : ℤ) + pyRound (1 * ((i : ℚ) + 1)) + 0)
            else none))) :=
  (C6_pure_projection 0 0 1 0 none "quarterly" (by norm_num) rfl).1

/-- Helper: for a nonnegative interval the classification loop returns the
half-open-range label. -/
theorem classify_interval_pos (x : ℚ) (h0 : 0 ≤ x) :
    classify_interval x =
      some (if x < 35 then "monthly" else if x < 95 then "quarterly"
            else if x < 185 then "semi-annual" else "annual") := by
  unfold classify_interval INTERVAL_RANGES
  by_cases h35 : x < 35
  · rw [List.find?_cons_of_pos _ (by simp [inRange]; exact ⟨h0, h35⟩)]
    simp [h35]
  · rw [List.find?_cons_of_neg _ (by simp [inRange, h35])]
    by_cases h95 : x < 95
    · rw [List.find?_cons_of_pos _
        (by simp [inRange]; exact ⟨not_lt.mp h35, h95⟩)]
      simp [h35, h95]
    · rw [List.find?_cons_of_neg _ (by simp [inRange, h95])]
      by_cases h185 : x < 185
      · rw [List.find?_cons_of_pos _
          (by simp [inRange]; exact ⟨not_lt.mp h95, h185⟩)]
        simp [h35, h95, h185]
      · rw [List.find?_cons_of_neg _ (by simp [inRange, h185])]
        rw [List.find?_cons_of_pos _ (by simp [inRange]; exact not_lt.mp h185)]
        simp [h35, h95, h185]

/-- C4: for a series whose computed average interval `x` is finite and
positive (after the length and valid-gap guards), the frequency detector
classifies `x` by the half-open ranges [0,35)→monthly, [35,95)→quarterly,
[95,185)→semi-annual, [185,∞)→annual, and returns the interval `x`
unchanged; in particular 34→monthly, 35→quarterly, 94→quarterly,
95→semi-annual, 184→semi-annual, 185→annual. -/
theorem C4_frequency_classification (divs : DivSeries) (today : ℤ) (x : ℚ)
    (hlen : 2 ≤ divs.length) (hgaps : 2 ≤ (validGaps divs).length)
    (hx : computedInterval divs today = some x) (hpos : 0 < x) :
    analyze_dividend_frequency divs today =
      (some (if x < 35 then "monthly" else if x < 95 then "quarterly"
             else if x < 185 then "semi-annual" else "annual"), some x) ∧
    classify_interval 34 = some "monthly" ∧
    classify_interval 35 = some "quarterly" ∧
    classify_interval 94 = some "quarterly" ∧
    classify_interval 95 = some "semi-annual" ∧
    classify_interval 184 = some "semi-annual" ∧
    classify_interval 185 = some "annual" := by
  refine ⟨?_, by decide, by decide, by decide, by decide, by decide, by decide⟩
  unfold analyze_dividend_frequency
  rw [if_neg (Nat.not_lt.mpr hlen), if_neg (Nat.not_lt.mpr hgaps), hx]
  dsimp only
  rw [if_neg (not_le.mpr hpos), classify_interval_pos x (le_of_lt hpos)]

/-- Witness for C4: four quarterly entries 90 days apart; the computed
interval is 90 and the classification is "quarterly". -/
theorem C4_frequency_classification_witness :
    analyze_dividend_frequency [(0, 1), (90, 1), (180, 1), (270, 1)] 300 =
      (some "quarterly", some 90) :=
  ((C4_frequency_classification [(0, 1), (90, 1), (180, 1), (270, 1)] 300 90
      (by decide) (by decide) (by decide) (by decide)).1).trans (by decide)

/-- Helper: consecutive differences of a strictly increasing list are
positive. -/
theorem diffs_pos (l : List ℤ) (h : List.Chain' (· < ·) l) :
    ∀ g ∈ diffs l, 0 < g := by
  induction l with
  | nil => intro g hg; simp [diffs] at hg
  | cons a t ih =>
    cases t with
    | nil => intro g hg; simp [diffs] at hg
    | cons b r =>
      intro g hg
      rw [show diffs (a :: b :: r) = (b - a) :: diffs (b :: r) from rfl] at hg
      rcases List.mem_cons.mp hg with rfl | hg'
      · have hab := (List.chain'_cons.mp h).1
        omega
      · exact ih (List.chain'_cons.mp h).2 g hg'

/-- Helper: `diffs` shortens a list by one. -/
theorem diffs_length (l : List ℤ) : (diffs l).length = l.length - 1 := by
  induction l with
  | nil => rfl
  | cons a t ih =>
    cases t with
    | nil => rfl
    | cons b r =>
      rw [show diffs (a :: b :: r) = (b - a) :: diffs (b :: r) from rfl]
      simp only [List.length_cons]
      rw [ih]
      simp

/-- Helper: insertion preserves length plus one. -/
theorem insSorted_length (x : ℚ) (l : List ℚ) :
    (insSorted x l).length = l.length + 1 := by
  induction l with
  | nil => rfl
  | cons y ys ih =>
    unfold insSorted
    split
    · simp
    · simp [ih]

/-- Helper: sorting preserves length. -/
theorem sortQ_length (l : List ℚ) : (sortQ l).length = l.length := by
  induction l with
  | nil => rfl
  | cons x xs ih =>
    unfold sortQ
    rw [insSorted_length, ih]
    rfl

/-- Helper: members of an insertion come from the inserted element or the
list. -/
theorem mem_insSorted (x a : ℚ) (l : List ℚ) (h : x ∈ insSorted a l) :
    x = a ∨ x ∈ l := by
  induction l with
  | nil =>
    simp [insSorted] at h
    exact Or.inl h
  | cons y ys ih =>
    unfold insSorted at h
    split at h
    · rcases List.mem_cons.mp h with rfl | h'
      · exact Or.inl rfl
      · exact Or.inr h'
    · rcases List.mem_cons.mp h with rfl | h'
      · exact Or.inr (List.mem_cons_self _ _)
      · rcases ih h' with h'' | h''
        · exact Or.inl h''
        · exact Or.inr (List.mem_cons_of_mem _ h'')

/-- Helper: members of the sorted list are members of the original. -/
theorem mem_sortQ (x : ℚ) (l : List ℚ) (h : x ∈ sortQ l) : x ∈ l := by
  induction l with
  | nil => simp [sortQ] at h
  | cons a as ih =>
    unfold sortQ at h
    rcases mem_insSorted x a (sortQ as) h with rfl | h'
    · exact List.mem_cons_self _ _
    · exact List.mem_cons_of_mem _ (ih h')

/-- Helper: the median of a nonempty list of positives is some positive. -/
theorem medianQ_some_pos (l : List ℚ) (hne : l ≠ [])
    (hpos : ∀ x ∈ l, 0 < x) : ∃ m, medianQ l = some m ∧ 0 < m := by
  have hslen : (sortQ l).length = l.length := sortQ_length l
  have hlpos : 0 < l.length := List.length_pos.mpr hne
  unfold medianQ
  split
  · have hidx : (sortQ l).length / 2 < (sortQ l).length := by omega
    refine ⟨(sortQ l)[(sortQ l).length / 2], List.getElem?_eq_getElem hidx, ?_⟩
    exact hpos _ (mem_sortQ _ _ (List.getElem_mem hidx))
  · rename_i heven
    have hidx1 : (sortQ l).length / 2 - 1 < (sortQ l).length := by omega
    have hidx2 : (sortQ l).length / 2 < (sortQ l).length := by omega
    rw [List.getElem?_eq_getElem hidx1, List.getElem?_eq_getElem hidx2]
    refine ⟨_, rfl, ?_⟩
    have ha := hpos _ (mem_sortQ _ _ (List.getElem_mem hidx1))
    have hb := hpos _ (mem_sortQ _ _ (List.getElem_mem hidx2))
    linarith

/-- Helper: for a strictly increasing nonempty list, the code's condition
`np.sum(recent_mask[:-1]) >= 2` is equivalent to the window holding at
least 3 dates. -/
theorem countP_dropLast_iff (dates : List ℤ) (c : ℤ)
    (hchain : List.Chain' (· < ·) dates) (hne : dates ≠ []) :
    2 ≤ dates.dropLast.countP (fun d => decide (c ≤ d)) ↔
      3 ≤ (dates.filter (fun d => decide (c ≤ d))).length := by
  have hsplit : dates = dates.dropLast ++ [dates.getLast hne] :=
    (List.dropLast_append_getLast hne).symm
  have hcount : dates.countP (fun d => decide (c ≤ d)) =
      dates.dropLast.countP (fun d => decide (c ≤ d)) +
        (if c ≤ dates.getLast hne then 1 else 0) := by
    conv_lhs => rw [hsplit]
    rw [List.countP_append, List.countP_cons, List.countP_nil]
    simp
  have hlast : (∃ x ∈ dates.dropLast, c ≤ x) → c ≤ dates.getLast hne := by
    rintro ⟨x, hx, hcx⟩
    have hpair := List.chain'_iff_pairwise.mp hchain
    rw [hsplit] at hpair
    have hxlt := (List.pairwise_append.mp hpair).2.2 x hx
      (dates.getLast hne) (by simp)
    omega
  constructor
  · intro h2
    have hex : ∃ x ∈ dates.dropLast, c ≤ x := by
      obtain ⟨x, hx, hpx⟩ := List.countP_pos_iff.mp
        (by omega : 0 < dates.dropLast.countP (fun d => decide (c ≤ d)))
      exact ⟨x, hx, of_decide_eq_true hpx⟩
    rw [← List.countP_eq_length_filter, hcount, if_pos (hlast hex)]
    omega
  · intro h3
    rw [← List.countP_eq_length_filter, hcount] at h3
    split at h3 <;> omega

/-- C8: for a strictly increasing series with at least 2 valid gaps, the
frequency detector returns as interval the median of the gaps between
dates inside the recent 1095-day window when that window holds at least 3
dates (equivalently at least 2 recent gaps), and otherwise the median of
all valid gaps of the full series. -/
theorem C8_recent_window_median (divs : DivSeries) (today : ℤ)
    (hchain : List.Chain' (· < ·) (divs.map Prod.fst))
    (hgaps : 2 ≤ (validGaps divs).length) :
    (3 ≤ ((divs.map Prod.fst).filter
        (fun d => decide (today - 1095 ≤ d))).length →
      (analyze_dividend_frequency divs today).2 =
        medianQ ((diffs ((divs.map Prod.fst).filter
          (fun d => decide (today - 1095 ≤ d)))).map (fun (g : ℤ) => (g : ℚ)))) ∧
    (((divs.map Prod.fst).filter
        (fun d => decide (today - 1095 ≤ d))).length < 3 →
      (analyze_dividend_frequency divs today).2 =
        medianQ ((validGaps divs).map (fun (g : ℤ) => (g : ℚ)))) := by
  have hvg : validGaps divs = diffs (divs.map Prod.fst) := by
    unfold validGaps
    exact List.filter_eq_self.mpr (fun g hg =>
      decide_eq_true (diffs_pos _ hchain g hg))
  have hdiffl : (diffs (divs.map Prod.fst)).length =
      (divs.map Prod.fst).length - 1 := diffs_length _
  have hlen3 : 3 ≤ (divs.map Prod.fst).length := by
    rw [hvg] at hgaps
    omega
  have hne : divs.map Prod.fst ≠ [] := by
    intro h
    rw [h] at hlen3
    simp at hlen3
  have hlen2 : 2 ≤ divs.length := by
    rw [List.length_map] at hlen3
    omega
  have hcond := countP_dropLast_iff (divs.map Prod.fst) (today - 1095)
    hchain hne
  constructor
  · intro h3
    have hc : 2 ≤ (divs.map Prod.fst).dropLast.countP
        (fun d => decide (today - 1095 ≤ d)) := hcond.mpr h3
    have hrchain : List.Chain' (· < ·) ((divs.map Prod.fst).filter
        (fun d => decide (today - 1095 ≤ d))) :=
      hchain.sublist (List.filter_sublist _)
    have hrpos := diffs_pos _ hrchain
    have hrfilter : (diffs ((divs.map Prod.fst).filter
        (fun d => decide (today - 1095 ≤ d)))).filter
        (fun g => decide (0 < g)) =
        diffs ((divs.map Prod.fst).filter
          (fun d => decide (today - 1095 ≤ d))) :=
      List.filter_eq_self.mpr (fun g hg => decide_eq_true (hrpos g hg))
    have hrlen := diffs_length ((divs.map Prod.fst).filter
      (fun d => decide (today - 1095 ≤ d)))
    have hrne : (diffs ((divs.map Prod.fst).filter
        (fun d => decide (today - 1095 ≤ d)))).map (fun (g : ℤ) => (g : ℚ)) ≠ [] := by
      intro hmap
      have hl := congrArg List.length hmap
      rw [List.length_map, hrlen, List.length_nil] at hl
      omega
    obtain ⟨m, hm, hmpos⟩ := medianQ_some_pos _ hrne (by
      intro y hy
      obtain ⟨g, hg, rfl⟩ := List.mem_map.mp hy
      exact_mod_cast hrpos g hg)
    have hci : computedInterval divs today = some m := by
      unfold computedInterval
      rw [if_pos hc, hrfilter]
      exact hm
    unfold analyze_dividend_frequency
    rw [if_neg (Nat.not_lt.mpr hlen2), if_neg (Nat.not_lt.mpr hgaps), hci]
    dsimp only
    rw [if_neg (not_le.mpr hmpos), hm]
    cases hcf : classify_interval m <;> rfl
  · intro hlt
    have hc : ¬ 2 ≤ (divs.map Prod.fst).dropLast.countP
        (fun d => decide (today - 1095 ≤ d)) :=
      fun hcc => absurd (hcond.mp hcc) (by omega)
    have hvpos : ∀ g ∈ validGaps divs, 0 < g := by
      rw [hvg]
      exact diffs_pos _ hchain
    have hvne : (validGaps divs).map (fun (g : ℤ) => (g : ℚ)) ≠ [] := by
      intro hmap
      have hl := congrArg List.length hmap
      rw [List.length_map, List.length_nil] at hl
      omega
    obtain ⟨m, hm, hmpos⟩ := medianQ_some_pos _ hvne (by
      intro y hy
      obtain ⟨g, hg, rfl⟩ := List.mem_map.mp hy
      exact_mod_cast hvpos g hg)
    have hci : computedInterval divs today = some m := by
      unfold computedInterval
      rw [if_neg hc]
      exact hm
    unfold analyze_dividend_frequency
    rw [if_neg (Nat.not_lt.mpr hlen2), if_neg (Nat.not_lt.mpr hgaps), hci]
    dsimp only
    rw [if_neg (not_le.mpr hmpos), hm]
    cases hcf : classify_interval m <;> rfl

/-- Witness for C8: four quarterly entries 90 days apart with today at
day 300 (all recent); the recent-window median 90 is returned. -/
theorem C8_recent_window_median_witness :
    (analyze_dividend_frequency [(0, 1), (90, 1), (180, 1), (270, 1)] 300).2 =
      medianQ ((diffs (([((0 : ℤ), (1 : ℚ)), (90, 1), (180, 1),
        (270, 1)].map Prod.fst).filter
        (fun d => decide ((300 : ℤ) - 1095 ≤ d)))).map (fun (g : ℤ) => (g : ℚ))) :=
  (C8_recent_window_median [(0, 1), (90, 1), (180, 1), (270, 1)] 300
    (by simp [List.chain'_cons]) (by decide)).1 (by decide)

end YF
